import Mathlib

/-
Verification of the function-invocation and trait-conformance core of the
Clarity smart-contract VM (`src/vm/callables.rs`): `DefinedFunction`,
`execute_apply`, `check_trait_expectations`, and `FunctionIdentifier`.

External collaborators (the expression evaluator, the type-admission
predicates `admits`/`admits_type`, and the per-contract trait lookup tables)
are modelled as explicitly passed functions, mirroring the spec's statement
that they are consumed as opaque, total operations.  The Rust `HashMap`s of
the call-local context are modelled as association lists whose lookup finds
the most recently inserted entry, matching `HashMap::insert`'s
replace-on-duplicate behaviour observationally.  An `unwrap` on a failed
lookup (a panic in Rust) is modelled as a distinguished `panic` outcome.
-/

namespace Callables

abbrev ClarityName := String

structure QualifiedContractIdentifier where
  issuer : String
  name : String
deriving DecidableEq, Repr

structure TraitIdentifier where
  name : ClarityName
  contract_identifier : QualifiedContractIdentifier
deriving DecidableEq, Repr

inductive PrincipalData where
  | Standard (s : String)
  | Contract (contract_id : QualifiedContractIdentifier)
deriving DecidableEq, Repr

/-- The type language, shallowly embedded: the trait-reference constructor is
the only one `callables.rs` inspects structurally; the remaining constructors
stand for the non-trait types (numerics, booleans, principals), whose
admission predicate is an external collaborator. -/
inductive TypeSignature where
  | TraitReferenceType (trait_reference : ClarityName)
  | IntType
  | UIntType
  | BoolType
  | PrincipalType
deriving DecidableEq, Repr

inductive Value where
  | Int (i : Int)
  | UInt (u : Nat)
  | Bool (b : Bool)
  | Principal (p : PrincipalData)
deriving DecidableEq, Repr

/-- Function bodies are opaque to this core; an index is enough to
distinguish them. -/
structure SymbolicExpression where
  idx : Nat
deriving DecidableEq, Repr

inductive CheckErrors where
  | IncorrectArgumentCount (expected : Nat) (actual : Nat)
  | TypeValueError (t : TypeSignature) (v : Value)
  | NameAlreadyUsed (name : String)
  | BadTraitImplementation (trait_name : String) (fn_name : String)
deriving DecidableEq, Repr

/-- The interpreter error channel: the distinguished early-return signal, a
check error lifted into the runtime channel, or any other runtime error
(opaque, indexed). -/
inductive Error where
  | ShortReturn (v : Value)
  | Check (e : CheckErrors)
  | Runtime (code : Nat)
deriving DecidableEq, Repr

/-- A trait method signature as stored in a contract's trait table.
`args` is what `check_trait_expectations` reads.  The `returns` component is
modelled from the spec: the trait table maps method names to full method
signatures, whose declared return type lives outside `src/`. -/
structure FunctionSignature where
  args : List TypeSignature
  returns : TypeSignature
deriving DecidableEq, Repr

/-- First-match association-list lookup, the observational behaviour of the
Rust `HashMap` reads performed by this core (with insertion modelled as a
cons, so the most recent insertion wins). -/
def assocLookup {α : Type} : List (ClarityName × α) → ClarityName → Option α
  | [], _ => none
  | (k', v) :: rest, k => if k' = k then some v else assocLookup rest k

/-- A contract's metadata interface: resolve a local trait-reference alias to
a canonical trait identity, and look up a trait definition (a method-name to
signature table) by trait name. -/
structure ContractContext where
  lookup_trait_reference : ClarityName → Option TraitIdentifier
  lookup_trait_definition : String → Option (List (ClarityName × FunctionSignature))

inductive DefineType where
  | ReadOnly
  | Public
  | Private
deriving DecidableEq, Repr

structure FunctionIdentifier where
  identifier : String
deriving DecidableEq, Repr

def FunctionIdentifier.new_native_function (name : String) : FunctionIdentifier :=
  { identifier := "_native_:" ++ name }

def FunctionIdentifier.new_user_function (name : String) (context : String) : FunctionIdentifier :=
  { identifier := context ++ ":" ++ name }

structure DefinedFunction where
  identifier : FunctionIdentifier
  name : ClarityName
  arg_types : List TypeSignature
  define_type : DefineType
  arguments : List ClarityName
  body : SymbolicExpression
deriving Repr

def DefinedFunction.new (args : List (ClarityName × TypeSignature))
    (body : SymbolicExpression) (define_type : DefineType)
    (name : ClarityName) (context_name : String) : DefinedFunction :=
  { identifier := FunctionIdentifier.new_user_function name context_name
    name := name
    arguments := args.map Prod.fst
    define_type := define_type
    body := body
    arg_types := args.map Prod.snd }

def DefinedFunction.is_read_only (f : DefinedFunction) : Bool :=
  f.define_type = DefineType.ReadOnly

def DefinedFunction.is_public (f : DefinedFunction) : Bool :=
  match f.define_type with
  | DefineType.Public => true
  | DefineType.Private => false
  | DefineType.ReadOnly => true

def DefinedFunction.get_identifier (f : DefinedFunction) : FunctionIdentifier :=
  f.identifier

/-- The call-local binding context: the variables map (named `variables` in
the source; `variables` is a reserved word in Lean) and the
callable-contracts side map for trait-typed parameters. -/
structure LocalContext where
  vars : List (ClarityName × Value)
  callable_contracts : List (ClarityName × (QualifiedContractIdentifier × TraitIdentifier))
deriving Repr

def LocalContext.new : LocalContext :=
  { vars := [], callable_contracts := [] }

/-- The execution environment as seen by `execute_apply`: the current
contract's context and the two external collaborators it consults (the
type-admission predicate and the body evaluator). -/
structure Environment where
  contract_context : ContractContext
  admits : TypeSignature → Value → Bool
  eval : SymbolicExpression → LocalContext → Except Error Value

/-- Outcome of `execute_apply`: a Rust panic (from the `unwrap` on trait
resolution), an error `Result`, or a success value. -/
inductive Outcome where
  | panic
  | err (e : Error)
  | ok (v : Value)
deriving DecidableEq, Repr

/-- Outcome of the argument-binding loop of `execute_apply`. -/
inductive BindOutcome where
  | panic
  | err (e : CheckErrors)
  | ok (ctx : LocalContext)
deriving Repr

/-- Holds exactly when the pair (declared type, supplied value) takes the
deferred trait branch of `execute_apply`'s match: a trait-reference type
paired with a contract principal. -/
def isDeferredBinding : TypeSignature → Value → Bool
  | TypeSignature.TraitReferenceType _, Value.Principal (PrincipalData.Contract _) => true
  | _, _ => false

/-- The `for arg in arg_iterator` loop of `execute_apply` (lines 72-91 of
`callables.rs`): trait-reference parameters given a contract principal are
recorded in the callable-contracts map after an unchecked (`unwrap`) trait
resolution; every other parameter is admission-checked and inserted into the
variables map, failing on a duplicate name there. -/
def bindArgs (env : Environment) (ctx : LocalContext) :
    List ((ClarityName × TypeSignature) × Value) → BindOutcome
  | [] => BindOutcome.ok ctx
  | ((name, type_sig), value) :: rest =>
    match type_sig, value with
    | TypeSignature.TraitReferenceType trait_reference,
      Value.Principal (PrincipalData.Contract contract_id) =>
      match env.contract_context.lookup_trait_reference trait_reference with
      | none => BindOutcome.panic
      | some trait_identifier =>
        bindArgs env
          { ctx with callable_contracts :=
              (name, (contract_id, trait_identifier)) :: ctx.callable_contracts }
          rest
    | _, _ =>
      if ¬ env.admits type_sig value then
        BindOutcome.err (CheckErrors.TypeValueError type_sig value)
      else if (assocLookup ctx.vars name).isSome then
        BindOutcome.err (CheckErrors.NameAlreadyUsed name)
      else
        bindArgs env { ctx with vars := (name, value) :: ctx.vars } rest

/-- `DefinedFunction::execute_apply`: arity check, argument binding, body
evaluation, and unwrapping of the early-return signal into a success. -/
def execute_apply (f : DefinedFunction) (args : List Value) (env : Environment) : Outcome :=
  if args.length ≠ f.arguments.length then
    Outcome.err (Error.Check (CheckErrors.IncorrectArgumentCount f.arguments.length args.length))
  else
    match bindArgs env LocalContext.new ((f.arguments.zip f.arg_types).zip args) with
    | BindOutcome.panic => Outcome.panic
    | BindOutcome.err e => Outcome.err (Error.Check e)
    | BindOutcome.ok context =>
      match env.eval f.body context with
      | Except.ok r => Outcome.ok r
      | Except.error (Error.ShortReturn v) => Outcome.ok v
      | Except.error e => Outcome.err e

/-- Outcome of `check_trait_expectations` (Rust `Result<()>`, plus the panic
of its two `unwrap`s). -/
inductive CheckOutcome where
  | panic
  | err (e : CheckErrors)
  | ok
deriving DecidableEq, Repr

/-- The pairwise loop of `check_trait_expectations` (lines 121-139): both
sides trait references means nominal comparison of resolved identities;
otherwise the expected type must admit the actual type. -/
def checkArgs (admits_type : TypeSignature → TypeSignature → Bool)
    (contract_defining_trait : ContractContext) (contract_to_check : ContractContext)
    (trait_name : String) (fn_name : String) :
    List (TypeSignature × TypeSignature) → CheckOutcome
  | [] => CheckOutcome.ok
  | (expected_arg, actual_arg) :: rest =>
    match expected_arg, actual_arg with
    | TypeSignature.TraitReferenceType expected, TypeSignature.TraitReferenceType actual =>
      match contract_defining_trait.lookup_trait_reference expected with
      | none => CheckOutcome.err (CheckErrors.BadTraitImplementation trait_name fn_name)
      | some expected_trait_id =>
        match contract_to_check.lookup_trait_reference actual with
        | none => CheckOutcome.err (CheckErrors.BadTraitImplementation trait_name fn_name)
        | some actual_trait_id =>
          if actual_trait_id ≠ expected_trait_id then
            CheckOutcome.err (CheckErrors.BadTraitImplementation trait_name fn_name)
          else
            checkArgs admits_type contract_defining_trait contract_to_check
              trait_name fn_name rest
    | _, arg_sig =>
      if ¬ admits_type expected_arg arg_sig then
        CheckOutcome.err (CheckErrors.BadTraitImplementation trait_name fn_name)
      else
        checkArgs admits_type contract_defining_trait contract_to_check
          trait_name fn_name rest

/-- `DefinedFunction::check_trait_expectations`: look up the trait definition
and the expected signature for this function's name (both unchecked
`unwrap`s), check arity, then check each parameter pair. -/
def check_trait_expectations (admits_type : TypeSignature → TypeSignature → Bool)
    (self : DefinedFunction) (contract_defining_trait : ContractContext)
    (trait_identifier : TraitIdentifier) (contract_to_check : ContractContext) :
    CheckOutcome :=
  let trait_name := trait_identifier.name
  match contract_defining_trait.lookup_trait_definition trait_name with
  | none => CheckOutcome.panic
  | some constraining_trait =>
    match assocLookup constraining_trait self.name with
    | none => CheckOutcome.panic
    | some expected_sig =>
      if expected_sig.args.length ≠ self.arg_types.length then
        CheckOutcome.err (CheckErrors.BadTraitImplementation trait_name self.name)
      else
        checkArgs admits_type contract_defining_trait contract_to_check
          trait_name self.name (expected_sig.args.zip self.arg_types)

/-- Compatibility of one (expected, actual) parameter pair, read off the
branch conditions of the pairwise loop: nominal identity of resolved traits
when both sides are trait references, type admission otherwise. -/
def argPairOk (admits_type : TypeSignature → TypeSignature → Bool)
    (contract_defining_trait : ContractContext) (contract_to_check : ContractContext)
    (expected_arg : TypeSignature) (actual_arg : TypeSignature) : Bool :=
  match expected_arg, actual_arg with
  | TypeSignature.TraitReferenceType expected, TypeSignature.TraitReferenceType actual =>
    match contract_defining_trait.lookup_trait_reference expected,
          contract_to_check.lookup_trait_reference actual with
    | some expected_trait_id, some actual_trait_id =>
      decide (actual_trait_id = expected_trait_id)
    | _, _ => false
  | _, arg_sig => admits_type expected_arg arg_sig

/-- Concrete trait identities, contracts, collaborators and functions used to
instantiate the theorems below on closed inputs. -/
def tidA : TraitIdentifier :=
  { name := "trait-a", contract_identifier := { issuer := "SP1", name := "defs" } }

def tidB : TraitIdentifier :=
  { name := "trait-b", contract_identifier := { issuer := "SP1", name := "defs" } }

def cidImpl : QualifiedContractIdentifier := { issuer := "SP2", name := "impl" }

def demoContractContext : ContractContext :=
  { lookup_trait_reference := fun s => if s = "t" then some tidA else none
    lookup_trait_definition := fun _ => none }

def admitsInt : TypeSignature → Value → Bool
  | TypeSignature.IntType, Value.Int _ => true
  | _, _ => false

def evalConstZero : SymbolicExpression → LocalContext → Except Error Value :=
  fun _ _ => Except.ok (Value.Int 0)

def envDemo : Environment :=
  { contract_context := demoContractContext, admits := admitsInt, eval := evalConstZero }

def envShortReturnSeven : Environment :=
  { contract_context := demoContractContext, admits := admitsInt
    eval := fun _ _ => Except.error (Error.ShortReturn (Value.Int 7)) }

def envRejectAll : Environment :=
  { contract_context := demoContractContext, admits := fun _ _ => false
    eval := evalConstZero }

def fNoParams : DefinedFunction :=
  DefinedFunction.new [] { idx := 0 } DefineType.Private "f0" "ctr"

def fOneInt : DefinedFunction :=
  DefinedFunction.new [("n", TypeSignature.IntType)] { idx := 0 } DefineType.Private "f1" "ctr"

def fTwoInts : DefinedFunction :=
  DefinedFunction.new [("a", TypeSignature.IntType), ("b", TypeSignature.IntType)]
    { idx := 0 } DefineType.Private "f2" "ctr"

def fDupInts : DefinedFunction :=
  DefinedFunction.new [("x", TypeSignature.IntType), ("x", TypeSignature.IntType)]
    { idx := 0 } DefineType.Private "fdup" "ctr"

def fTraitThenDup : DefinedFunction :=
  DefinedFunction.new
    [("x", TypeSignature.TraitReferenceType "t"), ("x", TypeSignature.IntType)]
    { idx := 0 } DefineType.Private "ftd" "ctr"

def fTrait : DefinedFunction :=
  DefinedFunction.new [("p", TypeSignature.TraitReferenceType "t")]
    { idx := 0 } DefineType.Private "ftrait" "ctr"

def admitsTypeEq : TypeSignature → TypeSignature → Bool :=
  fun a b => decide (a = b)

def sigTraitParam : FunctionSignature :=
  { args := [TypeSignature.TraitReferenceType "t-exp"], returns := TypeSignature.BoolType }

def sigTraitParamAlt : FunctionSignature :=
  { args := [TypeSignature.TraitReferenceType "t-exp"], returns := TypeSignature.IntType }

def definerContext : ContractContext :=
  { lookup_trait_reference := fun s => if s = "t-exp" then some tidA else none
    lookup_trait_definition := fun s =>
      if s = "trait-a" then some [("m", sigTraitParam)] else none }

def definerContextAlt : ContractContext :=
  { lookup_trait_reference := fun s => if s = "t-exp" then some tidA else none
    lookup_trait_definition := fun s =>
      if s = "trait-a" then some [("m", sigTraitParamAlt)] else none }

def checkerContext : ContractContext :=
  { lookup_trait_reference := fun s =>
      if s = "t-local" then some tidA else if s = "t-bad" then some tidB else none
    lookup_trait_definition := fun _ => none }

def fImplTrait : DefinedFunction :=
  DefinedFunction.new [("q", TypeSignature.TraitReferenceType "t-local")]
    { idx := 1 } DefineType.Public "m" "ctr"

def fImplBad : DefinedFunction :=
  DefinedFunction.new [("q", TypeSignature.TraitReferenceType "t-bad")]
    { idx := 1 } DefineType.Public "m" "ctr"

def fArityTwo : DefinedFunction :=
  DefinedFunction.new [("u", TypeSignature.IntType), ("v", TypeSignature.IntType)]
    { idx := 1 } DefineType.Public "m" "ctr"

/-- A pair taking the deferred branch is exactly a trait-reference type with a
contract-principal value. -/
theorem isDeferredBinding_eq_true {type_sig : TypeSignature} {value : Value}
    (h : isDeferredBinding type_sig value = true) :
    ∃ tr cid, type_sig = TypeSignature.TraitReferenceType tr ∧
      value = Value.Principal (PrincipalData.Contract cid) := by
  cases type_sig with
  | TraitReferenceType tr =>
    cases value with
    | Principal p =>
      cases p with
      | Standard s => simp [isDeferredBinding] at h
      | Contract cid => exact ⟨tr, cid, rfl, rfl⟩
    | Int i => simp [isDeferredBinding] at h
    | UInt u => simp [isDeferredBinding] at h
    | Bool b => simp [isDeferredBinding] at h
  | IntType => cases value <;> simp [isDeferredBinding] at h
  | UIntType => cases value <;> simp [isDeferredBinding] at h
  | BoolType => cases value <;> simp [isDeferredBinding] at h
  | PrincipalType => cases value <;> simp [isDeferredBinding] at h

/-- Deferred step of the binding loop when trait resolution succeeds. -/
theorem bindArgs_cons_deferred (env : Environment) (ctx : LocalContext)
    (name : ClarityName) (tr : ClarityName) (cid : QualifiedContractIdentifier)
    (rest : List ((ClarityName × TypeSignature) × Value)) (tid : TraitIdentifier)
    (h : env.contract_context.lookup_trait_reference tr = some tid) :
    bindArgs env ctx (((name, TypeSignature.TraitReferenceType tr),
        Value.Principal (PrincipalData.Contract cid)) :: rest) =
      bindArgs env
        { ctx with callable_contracts := (name, (cid, tid)) :: ctx.callable_contracts }
        rest := by
  simp [bindArgs, h]

/-- Deferred step of the binding loop when trait resolution fails: the Rust
`unwrap` panics. -/
theorem bindArgs_cons_deferred_none (env : Environment) (ctx : LocalContext)
    (name : ClarityName) (tr : ClarityName) (cid : QualifiedContractIdentifier)
    (rest : List ((ClarityName × TypeSignature) × Value))
    (h : env.contract_context.lookup_trait_reference tr = none) :
    bindArgs env ctx (((name, TypeSignature.TraitReferenceType tr),
        Value.Principal (PrincipalData.Contract cid)) :: rest) = BindOutcome.panic := by
  simp [bindArgs, h]

/-- Non-deferred step of the binding loop: admission check, duplicate-name
check, insertion into the variables map. -/
theorem bindArgs_cons_not_deferred (env : Environment) (ctx : LocalContext)
    (name : ClarityName) (type_sig : TypeSignature) (value : Value)
    (rest : List ((ClarityName × TypeSignature) × Value))
    (h : isDeferredBinding type_sig value = false) :
    bindArgs env ctx (((name, type_sig), value) :: rest) =
      if ¬ env.admits type_sig value then
        BindOutcome.err (CheckErrors.TypeValueError type_sig value)
      else if (assocLookup ctx.vars name).isSome then
        BindOutcome.err (CheckErrors.NameAlreadyUsed name)
      else
        bindArgs env { ctx with vars := (name, value) :: ctx.vars } rest := by
  cases type_sig <;> cases value <;> try rfl
  rename_i tr p
  cases p with
  | Standard s => rfl
  | Contract cid => simp [isDeferredBinding] at h

/-- The binding loop processes a concatenation left to right, stopping at the
first failure. -/
theorem bindArgs_append (env : Environment)
    (l₁ l₂ : List ((ClarityName × TypeSignature) × Value)) :
    ∀ ctx, bindArgs env ctx (l₁ ++ l₂) =
      match bindArgs env ctx l₁ with
      | BindOutcome.ok c => bindArgs env c l₂
      | BindOutcome.err e => BindOutcome.err e
      | BindOutcome.panic => BindOutcome.panic := by
  induction l₁ with
  | nil => intro ctx; rfl
  | cons hd tl ih =>
    intro ctx
    obtain ⟨⟨name, type_sig⟩, value⟩ := hd
    by_cases hdef : isDeferredBinding type_sig value = true
    · obtain ⟨tr, cid, rfl, rfl⟩ := isDeferredBinding_eq_true hdef
      cases hlk : env.contract_context.lookup_trait_reference tr with
      | none =>
        rw [List.cons_append, bindArgs_cons_deferred_none env ctx name tr cid (tl ++ l₂) hlk,
          bindArgs_cons_deferred_none env ctx name tr cid tl hlk]
      | some tid =>
        rw [List.cons_append, bindArgs_cons_deferred env ctx name tr cid (tl ++ l₂) tid hlk,
          bindArgs_cons_deferred env ctx name tr cid tl tid hlk, ih]
    · have hdef' : isDeferredBinding type_sig value = false := by simpa using hdef
      rw [List.cons_append,
        bindArgs_cons_not_deferred env ctx name type_sig value (tl ++ l₂) hdef',
        bindArgs_cons_not_deferred env ctx name type_sig value tl hdef']
      split_ifs with h1 h2 <;> first | rfl | exact ih _

/-- Binding never reaches the `unwrap` failure when every trait reference
appearing among the declared types of the processed list resolves. -/
theorem bindArgs_ne_panic (env : Environment)
    (l : List ((ClarityName × TypeSignature) × Value))
    (h : ∀ p ∈ l, ∀ tr, p.1.2 = TypeSignature.TraitReferenceType tr →
      (env.contract_context.lookup_trait_reference tr).isSome) :
    ∀ ctx, bindArgs env ctx l ≠ BindOutcome.panic := by
  induction l with
  | nil => intro ctx hc; exact BindOutcome.noConfusion hc
  | cons hd tl ih =>
    intro ctx
    obtain ⟨⟨name, type_sig⟩, value⟩ := hd
    by_cases hdef : isDeferredBinding type_sig value = true
    · obtain ⟨tr, cid, rfl, rfl⟩ := isDeferredBinding_eq_true hdef
      have hs : (env.contract_context.lookup_trait_reference tr).isSome :=
        h _ (List.mem_cons_self _ _) tr rfl
      cases hlk : env.contract_context.lookup_trait_reference tr with
      | none => rw [hlk] at hs; simp at hs
      | some tid =>
        rw [bindArgs_cons_deferred env ctx name tr cid tl tid hlk]
        exact ih (fun p hp => h p (List.mem_cons_of_mem _ hp)) _
    · have hdef' : isDeferredBinding type_sig value = false := by simpa using hdef
      rw [bindArgs_cons_not_deferred env ctx name type_sig value tl hdef']
      split_ifs with h1 h2 <;>
        first
        | exact fun hc => BindOutcome.noConfusion hc
        | exact ih (fun p hp => h p (List.mem_cons_of_mem _ hp)) _

/-- The callable-contracts map only grows during binding. -/
theorem bindArgs_callable_contracts_mono (env : Environment)
    (l : List ((ClarityName × TypeSignature) × Value)) :
    ∀ ctx ctxf, bindArgs env ctx l = BindOutcome.ok ctxf →
      ∀ p ∈ ctx.callable_contracts, p ∈ ctxf.callable_contracts := by
  induction l with
  | nil =>
    intro ctx ctxf hb p hp
    cases hb
    exact hp
  | cons hd tl ih =>
    intro ctx ctxf hb p hp
    obtain ⟨⟨name, type_sig⟩, value⟩ := hd
    by_cases hdef : isDeferredBinding type_sig value = true
    · obtain ⟨tr, cid, rfl, rfl⟩ := isDeferredBinding_eq_true hdef
      cases hlk : env.contract_context.lookup_trait_reference tr with
      | none =>
        rw [bindArgs_cons_deferred_none env ctx name tr cid tl hlk] at hb
        exact BindOutcome.noConfusion hb
      | some tid =>
        rw [bindArgs_cons_deferred env ctx name tr cid tl tid hlk] at hb
        exact ih _ _ hb p (List.mem_cons_of_mem _ hp)
    · have hdef' : isDeferredBinding type_sig value = false := by simpa using hdef
      rw [bindArgs_cons_not_deferred env ctx name type_sig value tl hdef'] at hb
      split_ifs at hb with h1 h2 <;>
        first
        | exact BindOutcome.noConfusion hb
        | exact ih _ _ hb p hp

/-- A successfully bound deferred argument leaves its (principal, trait
identity) record in the final callable-contracts map. -/
theorem bindArgs_deferred_mem (env : Environment)
    (name : ClarityName) (tr : ClarityName) (cid : QualifiedContractIdentifier)
    (tid : TraitIdentifier)
    (h : env.contract_context.lookup_trait_reference tr = some tid)
    (l : List ((ClarityName × TypeSignature) × Value)) :
    ∀ ctx ctxf, bindArgs env ctx l = BindOutcome.ok ctxf →
      ((name, TypeSignature.TraitReferenceType tr),
        Value.Principal (PrincipalData.Contract cid)) ∈ l →
      (name, (cid, tid)) ∈ ctxf.callable_contracts := by
  induction l with
  | nil =>
    intro ctx ctxf _ hmem
    exact absurd hmem (List.not_mem_nil _)
  | cons hd tl ih =>
    intro ctx ctxf hb hmem
    rcases List.mem_cons.mp hmem with heq | hmem'
    · subst heq
      rw [bindArgs_cons_deferred env ctx name tr cid tl tid h] at hb
      exact bindArgs_callable_contracts_mono env tl _ _ hb _ (List.mem_cons_self _ _)
    · obtain ⟨⟨name', type_sig'⟩, value'⟩ := hd
      by_cases hdef : isDeferredBinding type_sig' value' = true
      · obtain ⟨tr', cid', rfl, rfl⟩ := isDeferredBinding_eq_true hdef
        cases hlk : env.contract_context.lookup_trait_reference tr' with
        | none =>
          rw [bindArgs_cons_deferred_none env ctx name' tr' cid' tl hlk] at hb
          exact BindOutcome.noConfusion hb
        | some tid' =>
          rw [bindArgs_cons_deferred env ctx name' tr' cid' tl tid' hlk] at hb
          exact ih _ _ hb hmem'
      · have hdef' : isDeferredBinding type_sig' value' = false := by simpa using hdef
        rw [bindArgs_cons_not_deferred env ctx name' type_sig' value' tl hdef'] at hb
        split_ifs at hb with h1 h2 <;>
          first
          | exact BindOutcome.noConfusion hb
          | exact ih _ _ hb hmem'

theorem ite_cond_congr (x y : Bool) (h : x = y) (o e : CheckOutcome) :
    (if x = true then o else e) = (if y = true then o else e) := by
  subst h
  rfl

theorem ite_not_and (x y : Bool) (o e : CheckOutcome) :
    (if ¬ x = true then e else if y = true then o else e) =
      (if (x && y) = true then o else e) := by
  cases x <;> cases y <;> simp

/-- The pairwise loop succeeds exactly when every pair is compatible, and
otherwise returns the one bad-trait-implementation error. -/
theorem checkArgs_eq_all (admits_type : TypeSignature → TypeSignature → Bool)
    (contract_defining_trait contract_to_check : ContractContext)
    (trait_name fn_name : String) (l : List (TypeSignature × TypeSignature)) :
    checkArgs admits_type contract_defining_trait contract_to_check trait_name fn_name l =
      if l.all (fun p =>
          argPairOk admits_type contract_defining_trait contract_to_check p.1 p.2) then
        CheckOutcome.ok
      else
        CheckOutcome.err (CheckErrors.BadTraitImplementation trait_name fn_name) := by
  induction l with
  | nil => rfl
  | cons hd tl ih =>
    obtain ⟨ea, aa⟩ := hd
    cases ea <;> cases aa <;>
      try (simp only [checkArgs, argPairOk, List.all_cons, ih]; exact ite_not_and _ _ _ _)
    rename_i e a
    cases h1 : contract_defining_trait.lookup_trait_reference e with
    | none =>
      have hpair : argPairOk admits_type contract_defining_trait contract_to_check
          (TypeSignature.TraitReferenceType e) (TypeSignature.TraitReferenceType a) = false := by
        simp [argPairOk, h1]
      simp [checkArgs, h1, List.all_cons, hpair]
    | some expected_trait_id =>
      cases h2 : contract_to_check.lookup_trait_reference a with
      | none =>
        have hpair : argPairOk admits_type contract_defining_trait contract_to_check
            (TypeSignature.TraitReferenceType e) (TypeSignature.TraitReferenceType a) = false := by
          simp [argPairOk, h1, h2]
        simp [checkArgs, h1, h2, List.all_cons, hpair]
      | some actual_trait_id =>
        by_cases h3 : actual_trait_id = expected_trait_id
        · subst h3
          have hpair : argPairOk admits_type contract_defining_trait contract_to_check
              (TypeSignature.TraitReferenceType e) (TypeSignature.TraitReferenceType a) = true := by
            simp [argPairOk, h1, h2]
          simp only [checkArgs, h1, h2, List.all_cons]
          rw [ih, if_neg (fun hc => hc rfl)]
          exact (ite_cond_congr _ _ (by rw [hpair, Bool.true_and]) _ _).symm
        · have hpair : argPairOk admits_type contract_defining_trait contract_to_check
              (TypeSignature.TraitReferenceType e) (TypeSignature.TraitReferenceType a) = false := by
            simp [argPairOk, h1, h2, h3]
          simp [checkArgs, h1, h2, h3, List.all_cons, hpair]

/-- The pairwise loop reads nothing of the defining contract but its
trait-reference table. -/
theorem checkArgs_congr (admits_type : TypeSignature → TypeSignature → Bool)
    (c₁ c₂ contract_to_check : ContractContext)
    (h : c₁.lookup_trait_reference = c₂.lookup_trait_reference)
    (trait_name fn_name : String) (l : List (TypeSignature × TypeSignature)) :
    checkArgs admits_type c₁ contract_to_check trait_name fn_name l =
      checkArgs admits_type c₂ contract_to_check trait_name fn_name l := by
  rw [checkArgs_eq_all, checkArgs_eq_all]
  have hp : ∀ p : TypeSignature × TypeSignature,
      argPairOk admits_type c₁ contract_to_check p.1 p.2 =
        argPairOk admits_type c₂ contract_to_check p.1 p.2 := by
    intro p
    obtain ⟨ea, aa⟩ := p
    cases ea <;> cases aa <;> simp [argPairOk, h]
  simp only [hp]

/-- Once the two unchecked lookups succeed, `check_trait_expectations` is the
arity check followed by the pairwise loop. -/
theorem check_trait_expectations_eq (admits_type : TypeSignature → TypeSignature → Bool)
    (self : DefinedFunction) (contract_defining_trait : ContractContext)
    (trait_identifier : TraitIdentifier) (contract_to_check : ContractContext)
    (tbl : List (ClarityName × FunctionSignature)) (expected_sig : FunctionSignature)
    (hdef : contract_defining_trait.lookup_trait_definition trait_identifier.name = some tbl)
    (hsig : assocLookup tbl self.name = some expected_sig) :
    check_trait_expectations admits_type self contract_defining_trait
        trait_identifier contract_to_check =
      if expected_sig.args.length ≠ self.arg_types.length then
        CheckOutcome.err
          (CheckErrors.BadTraitImplementation trait_identifier.name self.name)
      else
        checkArgs admits_type contract_defining_trait contract_to_check
          trait_identifier.name self.name (expected_sig.args.zip self.arg_types) := by
  simp only [check_trait_expectations, hdef, hsig]

/-- C4: for any `DefinedFunction` and argument list whose length differs from
the declared parameter count, `execute_apply` fails with
`IncorrectArgumentCount (expected = parameter count, actual = argument
count)`.  The environment — in particular the body evaluator — is universally
quantified, so the body is never evaluated and no binding context is ever
shown to it. -/
theorem execute_apply_arity_mismatch (f : DefinedFunction) (args : List Value)
    (env : Environment) (h : args.length ≠ f.arguments.length) :
    execute_apply f args env =
      Outcome.err (Error.Check
        (CheckErrors.IncorrectArgumentCount f.arguments.length args.length)) := by
  unfold execute_apply
  rw [if_pos h]

/-- Witness for C4, the spec's scenario: a function with 2 parameters invoked
with 1 argument yields `IncorrectArgumentCount (2, 1)`. -/
theorem execute_apply_arity_mismatch_witness :
    ([Value.Int 1].length ≠ fTwoInts.arguments.length) ∧
    execute_apply fTwoInts [Value.Int 1] envDemo =
      Outcome.err (Error.Check (CheckErrors.IncorrectArgumentCount 2 1)) :=
  ⟨by decide, execute_apply_arity_mismatch fTwoInts [Value.Int 1] envDemo (by decide)⟩

/-- When arity matches and binding succeeds with context `ctx`,
`execute_apply` is the evaluator's outcome post-processed. -/
theorem execute_apply_eval (f : DefinedFunction) (args : List Value)
    (env : Environment) (ctx : LocalContext)
    (hlen : args.length = f.arguments.length)
    (hbind : bindArgs env LocalContext.new ((f.arguments.zip f.arg_types).zip args) =
      BindOutcome.ok ctx) :
    execute_apply f args env =
      match env.eval f.body ctx with
      | Except.ok r => Outcome.ok r
      | Except.error (Error.ShortReturn v) => Outcome.ok v
      | Except.error e => Outcome.err e := by
  unfold execute_apply
  rw [if_neg (fun hc => hc hlen), hbind]

/-- C3: once binding succeeds, `execute_apply` post-processes the evaluator's
outcome exactly as the source does: a `ShortReturn v` failure becomes success
`v`, any other error propagates unchanged, and a success is returned as-is. -/
theorem execute_apply_result_postprocessing (f : DefinedFunction) (args : List Value)
    (env : Environment) (ctx : LocalContext)
    (hlen : args.length = f.arguments.length)
    (hbind : bindArgs env LocalContext.new ((f.arguments.zip f.arg_types).zip args) =
      BindOutcome.ok ctx) :
    (∀ v, env.eval f.body ctx = Except.error (Error.ShortReturn v) →
      execute_apply f args env = Outcome.ok v)
    ∧ (∀ e, env.eval f.body ctx = Except.error e → (∀ v, e ≠ Error.ShortReturn v) →
      execute_apply f args env = Outcome.err e)
    ∧ (∀ r, env.eval f.body ctx = Except.ok r →
      execute_apply f args env = Outcome.ok r) := by
  rw [execute_apply_eval f args env ctx hlen hbind]
  refine ⟨?_, ?_, ?_⟩
  · intro v hv
    rw [hv]
  · intro e he hne
    rw [he]
    cases e with
    | ShortReturn v => exact absurd rfl (hne v)
    | Check e' => rfl
    | Runtime code => rfl
  · intro r hr
    rw [hr]

/-- Witness for C3, the spec's scenario: the body raises the early-return
signal carrying `7` and `execute_apply` returns success `7`. -/
theorem execute_apply_result_postprocessing_witness :
    ([] : List Value).length = fNoParams.arguments.length ∧
    bindArgs envShortReturnSeven LocalContext.new
        ((fNoParams.arguments.zip fNoParams.arg_types).zip []) =
      BindOutcome.ok LocalContext.new ∧
    execute_apply fNoParams [] envShortReturnSeven = Outcome.ok (Value.Int 7) :=
  ⟨rfl, rfl,
    (execute_apply_result_postprocessing fNoParams [] envShortReturnSeven
        LocalContext.new rfl rfl).1 (Value.Int 7) rfl⟩

/-- C5: a non-deferred argument (not a trait-reference type paired with a
contract principal) whose value the declared type does not admit aborts the
call with `TypeValueError (declared type, value)`: binding stops there (the
following arguments are arbitrary) and, the evaluator being universally
quantified, the body is never evaluated. -/
theorem execute_apply_type_admission_failure (f : DefinedFunction) (args : List Value)
    (env : Environment)
    (pre rest : List ((ClarityName × TypeSignature) × Value))
    (name : ClarityName) (type_sig : TypeSignature) (value : Value) (ctx' : LocalContext)
    (hlen : args.length = f.arguments.length)
    (hsplit : (f.arguments.zip f.arg_types).zip args =
      pre ++ ((name, type_sig), value) :: rest)
    (hpre : bindArgs env LocalContext.new pre = BindOutcome.ok ctx')
    (hnd : isDeferredBinding type_sig value = false)
    (hadm : env.admits type_sig value = false) :
    execute_apply f args env =
      Outcome.err (Error.Check (CheckErrors.TypeValueError type_sig value)) := by
  have hb : bindArgs env LocalContext.new ((f.arguments.zip f.arg_types).zip args) =
      BindOutcome.err (CheckErrors.TypeValueError type_sig value) := by
    rw [hsplit, bindArgs_append env pre (((name, type_sig), value) :: rest), hpre]
    show bindArgs env ctx' (((name, type_sig), value) :: rest) = _
    rw [bindArgs_cons_not_deferred env ctx' name type_sig value rest hnd]
    simp [hadm]
  unfold execute_apply
  rw [if_neg (fun hc => hc hlen), hb]

/-- Witness for C5, the spec's scenario: a numeric parameter given a boolean
value yields `TypeValueError (numeric type, boolean value)`. -/
theorem execute_apply_type_admission_failure_witness :
    envDemo.admits TypeSignature.IntType (Value.Bool true) = false ∧
    isDeferredBinding TypeSignature.IntType (Value.Bool true) = false ∧
    execute_apply fOneInt [Value.Bool true] envDemo =
      Outcome.err (Error.Check
        (CheckErrors.TypeValueError TypeSignature.IntType (Value.Bool true))) :=
  ⟨rfl, rfl,
    execute_apply_type_admission_failure fOneInt [Value.Bool true] envDemo
      [] [] "n" TypeSignature.IntType (Value.Bool true) LocalContext.new
      rfl rfl rfl rfl rfl⟩

/-- Counterexample to C6 as stated: a name already bound by a trait-deferred
parameter does not trigger `NameAlreadyUsed` when a later parameter reuses
it.  Here `fTraitThenDup` declares the name `x` twice — once as a
trait-reference parameter, once as an integer parameter — yet the call
succeeds instead of aborting, because the duplicate check only consults the
variables map and the trait-deferred binding went to the callable-contracts
map. -/
theorem execute_apply_duplicate_name_counterexample :
    fTraitThenDup.arguments = ["x", "x"] ∧
    execute_apply fTraitThenDup
        [Value.Principal (PrincipalData.Contract cidImpl), Value.Int 1] envDemo =
      Outcome.ok (Value.Int 0) := by
  exact ⟨rfl, rfl⟩

/-- C6 as amended: rebinding a name that an earlier *non-deferred* parameter
already placed in the variables map aborts the call with `NameAlreadyUsed`
carrying that name; uniqueness is enforced at bind time only for parameters
bound in the variables map. -/
theorem execute_apply_duplicate_variable_binding (f : DefinedFunction)
    (args : List Value) (env : Environment)
    (pre rest : List ((ClarityName × TypeSignature) × Value))
    (name : ClarityName) (type_sig : TypeSignature) (value : Value) (ctx' : LocalContext)
    (hlen : args.length = f.arguments.length)
    (hsplit : (f.arguments.zip f.arg_types).zip args =
      pre ++ ((name, type_sig), value) :: rest)
    (hpre : bindArgs env LocalContext.new pre = BindOutcome.ok ctx')
    (hnd : isDeferredBinding type_sig value = false)
    (hadm : env.admits type_sig value = true)
    (hdup : (assocLookup ctx'.vars name).isSome = true) :
    execute_apply f args env =
      Outcome.err (Error.Check (CheckErrors.NameAlreadyUsed name)) := by
  have hb : bindArgs env LocalContext.new ((f.arguments.zip f.arg_types).zip args) =
      BindOutcome.err (CheckErrors.NameAlreadyUsed name) := by
    rw [hsplit, bindArgs_append env pre (((name, type_sig), value) :: rest), hpre]
    show bindArgs env ctx' (((name, type_sig), value) :: rest) = _
    rw [bindArgs_cons_not_deferred env ctx' name type_sig value rest hnd]
    simp [hadm, hdup]
  unfold execute_apply
  rw [if_neg (fun hc => hc hlen), hb]

/-- Witness for the amended C6: two integer parameters both named `x`; the
second binding aborts the call with `NameAlreadyUsed "x"`. -/
theorem execute_apply_duplicate_variable_binding_witness :
    (assocLookup (⟨[("x", Value.Int 1)], []⟩ : LocalContext).vars "x").isSome = true ∧
    execute_apply fDupInts [Value.Int 1, Value.Int 2] envDemo =
      Outcome.err (Error.Check (CheckErrors.NameAlreadyUsed "x")) :=
  ⟨rfl,
    execute_apply_duplicate_variable_binding fDupInts [Value.Int 1, Value.Int 2]
      envDemo [(("x", TypeSignature.IntType), Value.Int 1)] []
      "x" TypeSignature.IntType (Value.Int 2) ⟨[("x", Value.Int 1)], []⟩
      rfl rfl rfl rfl rfl rfl⟩

/-- C1: a trait-reference parameter given a contract principal is never
admission-checked — the step is the same for every admission predicate, and
in particular for one that rejects everything — and its effect is exactly to
record (principal, resolved trait identity) under the parameter's name in
the callable-contracts map, leaving the variables map untouched; the record
survives into the final context of any successful binding. -/
theorem execute_apply_trait_reference_binding (env : Environment) (ctx : LocalContext)
    (name tr : ClarityName) (cid : QualifiedContractIdentifier) (tid : TraitIdentifier)
    (rest : List ((ClarityName × TypeSignature) × Value))
    (h : env.contract_context.lookup_trait_reference tr = some tid) :
    (bindArgs env ctx (((name, TypeSignature.TraitReferenceType tr),
        Value.Principal (PrincipalData.Contract cid)) :: rest) =
      bindArgs env
        { vars := ctx.vars,
          callable_contracts := (name, (cid, tid)) :: ctx.callable_contracts } rest)
    ∧ (∀ g : TypeSignature → Value → Bool,
        bindArgs { env with admits := g } ctx
            (((name, TypeSignature.TraitReferenceType tr),
              Value.Principal (PrincipalData.Contract cid)) :: rest) =
          bindArgs { env with admits := g }
            { vars := ctx.vars,
              callable_contracts := (name, (cid, tid)) :: ctx.callable_contracts } rest)
    ∧ (∀ (l : List ((ClarityName × TypeSignature) × Value)) (ctxf : LocalContext),
        bindArgs env LocalContext.new l = BindOutcome.ok ctxf →
        ((name, TypeSignature.TraitReferenceType tr),
          Value.Principal (PrincipalData.Contract cid)) ∈ l →
        (name, (cid, tid)) ∈ ctxf.callable_contracts) :=
  ⟨bindArgs_cons_deferred env ctx name tr cid rest tid h,
    fun g => bindArgs_cons_deferred { env with admits := g } ctx name tr cid rest tid h,
    fun l ctxf hb hm => bindArgs_deferred_mem env name tr cid tid h l LocalContext.new ctxf hb hm⟩

/-- Witness for C1: under an admission predicate that rejects every value,
the trait-typed argument still binds without error, into the
callable-contracts map. -/
theorem execute_apply_trait_reference_binding_witness :
    envRejectAll.contract_context.lookup_trait_reference "t" = some tidA ∧
    bindArgs envRejectAll LocalContext.new
        [(("p", TypeSignature.TraitReferenceType "t"),
          Value.Principal (PrincipalData.Contract cidImpl))] =
      BindOutcome.ok { vars := [], callable_contracts := [("p", (cidImpl, tidA))] } := by
  refine ⟨by decide, ?_⟩
  rw [(execute_apply_trait_reference_binding envRejectAll LocalContext.new
      "p" "t" cidImpl tidA [] (by decide)).1]
  rfl

/-- C9: under the invariant that every trait reference appearing among the
declared parameter types resolves in the current contract's trait-reference
table, `execute_apply` never reaches the `unwrap` failure: it cannot
panic. -/
theorem execute_apply_no_panic (f : DefinedFunction) (args : List Value)
    (env : Environment)
    (h : ∀ tr, TypeSignature.TraitReferenceType tr ∈ f.arg_types →
      (env.contract_context.lookup_trait_reference tr).isSome) :
    execute_apply f args env ≠ Outcome.panic := by
  unfold execute_apply
  split
  · exact fun hc => Outcome.noConfusion hc
  · have hb : bindArgs env LocalContext.new
        ((f.arguments.zip f.arg_types).zip args) ≠ BindOutcome.panic := by
      apply bindArgs_ne_panic
      intro p hp tr hptr
      obtain ⟨⟨n, t⟩, v⟩ := p
      have ht : t ∈ f.arg_types := (List.of_mem_zip (List.of_mem_zip hp).1).2
      exact h tr (hptr ▸ ht)
    split
    · rename_i heq
      exact absurd heq hb
    · exact fun hc => Outcome.noConfusion hc
    · split <;> exact fun hc => Outcome.noConfusion hc

/-- Witness for C9: a function with one trait-typed parameter in an
environment whose trait-reference table resolves it; the call cannot
panic. -/
theorem execute_apply_no_panic_witness :
    (∀ tr, TypeSignature.TraitReferenceType tr ∈ fTrait.arg_types →
      (envDemo.contract_context.lookup_trait_reference tr).isSome) ∧
    execute_apply fTrait [Value.Principal (PrincipalData.Contract cidImpl)] envDemo ≠
      Outcome.panic := by
  have hh : ∀ tr, TypeSignature.TraitReferenceType tr ∈ fTrait.arg_types →
      (envDemo.contract_context.lookup_trait_reference tr).isSome := by
    intro tr htr
    have he : TypeSignature.TraitReferenceType tr = TypeSignature.TraitReferenceType "t" := by
      simpa [fTrait, DefinedFunction.new] using htr
    injection he with he'
    subst he'
    decide
  exact ⟨hh, execute_apply_no_panic fTrait
    [Value.Principal (PrincipalData.Contract cidImpl)] envDemo hh⟩

/-- C2: when an expected and an actual parameter type are both trait
references, the loop resolves each side's alias through its own contract's
trait-reference table.  First conjunct: if both resolve to the same canonical
identity the position passes and checking moves on, whatever the two (possibly
different) alias names are.  Second conjunct: if either resolution fails or
the identities differ, the whole check fails with
`BadTraitImplementation (trait name, function name)`. -/
theorem check_trait_expectations_nominal_trait_params
    (admits_type : TypeSignature → TypeSignature → Bool)
    (self : DefinedFunction) (contract_defining_trait : ContractContext)
    (trait_identifier : TraitIdentifier) (contract_to_check : ContractContext)
    (e a : ClarityName) :
    (∀ tid, contract_defining_trait.lookup_trait_reference e = some tid →
        contract_to_check.lookup_trait_reference a = some tid →
      ∀ rest, checkArgs admits_type contract_defining_trait contract_to_check
          trait_identifier.name self.name
          ((TypeSignature.TraitReferenceType e, TypeSignature.TraitReferenceType a)
            :: rest) =
        checkArgs admits_type contract_defining_trait contract_to_check
          trait_identifier.name self.name rest)
    ∧ (∀ (tbl : List (ClarityName × FunctionSignature)) (expected_sig : FunctionSignature),
        contract_defining_trait.lookup_trait_definition trait_identifier.name = some tbl →
        assocLookup tbl self.name = some expected_sig →
        expected_sig.args.length = self.arg_types.length →
        (TypeSignature.TraitReferenceType e, TypeSignature.TraitReferenceType a) ∈
          expected_sig.args.zip self.arg_types →
        (contract_defining_trait.lookup_trait_reference e = none ∨
          contract_to_check.lookup_trait_reference a = none ∨
          (∃ t₁ t₂, contract_defining_trait.lookup_trait_reference e = some t₁ ∧
            contract_to_check.lookup_trait_reference a = some t₂ ∧ t₁ ≠ t₂)) →
        check_trait_expectations admits_type self contract_defining_trait
            trait_identifier contract_to_check =
          CheckOutcome.err
            (CheckErrors.BadTraitImplementation trait_identifier.name self.name)) := by
  constructor
  · intro tid h1 h2 rest
    simp [checkArgs, h1, h2]
  · intro tbl expected_sig hdef hsig hlen hmem hfail
    have hpair : argPairOk admits_type contract_defining_trait contract_to_check
        (TypeSignature.TraitReferenceType e) (TypeSignature.TraitReferenceType a) = false := by
      rcases hfail with h1 | h2 | ⟨t₁, t₂, h1, h2, hne⟩
      · simp [argPairOk, h1]
      · cases hx : contract_defining_trait.lookup_trait_reference e <;>
          simp [argPairOk, hx, h2]
      · have hne' : t₂ ≠ t₁ := fun hc => hne hc.symm
        simp [argPairOk, h1, h2, hne']
    rw [check_trait_expectations_eq admits_type self contract_defining_trait
        trait_identifier contract_to_check tbl expected_sig hdef hsig,
      if_neg (fun hc => hc hlen), checkArgs_eq_all]
    cases hall : (expected_sig.args.zip self.arg_types).all
        (fun p => argPairOk admits_type contract_defining_trait contract_to_check p.1 p.2) with
    | true => exact absurd (List.all_eq_true.mp hall _ hmem) (by simp [hpair])
    | false => simp

/-- Witness for C2: differently named aliases `t-exp` and `t-local` resolving
to the same identity pass; the alias `t-bad` resolving to a different
identity makes the whole check fail. -/
theorem check_trait_expectations_nominal_trait_params_witness :
    definerContext.lookup_trait_reference "t-exp" = some tidA ∧
    checkerContext.lookup_trait_reference "t-local" = some tidA ∧
    checkerContext.lookup_trait_reference "t-bad" = some tidB ∧ tidA ≠ tidB ∧
    checkArgs admitsTypeEq definerContext checkerContext "trait-a" "m"
        [(TypeSignature.TraitReferenceType "t-exp",
          TypeSignature.TraitReferenceType "t-local")] = CheckOutcome.ok ∧
    check_trait_expectations admitsTypeEq fImplBad definerContext tidA checkerContext =
      CheckOutcome.err (CheckErrors.BadTraitImplementation "trait-a" "m") := by
  refine ⟨by decide, by decide, by decide, by decide, ?_, ?_⟩
  · exact ((check_trait_expectations_nominal_trait_params admitsTypeEq fImplTrait
      definerContext tidA checkerContext "t-exp" "t-local").1 tidA
      (by decide) (by decide) []).trans rfl
  · exact (check_trait_expectations_nominal_trait_params admitsTypeEq fImplBad
      definerContext tidA checkerContext "t-exp" "t-bad").2
      [("m", sigTraitParam)] sigTraitParam (by decide) (by decide) (by decide)
      (by decide)
      (Or.inr (Or.inr ⟨tidA, tidB, by decide, by decide, by decide⟩))

/-- C7: given the trait definition and the expected signature for this
function's name, an arity mismatch fails the check with
`BadTraitImplementation (trait name, function name)`, and the check succeeds
exactly when the arity matches and every parameter position is compatible —
there is no partial success. -/
theorem check_trait_expectations_arity_and_totality
    (admits_type : TypeSignature → TypeSignature → Bool)
    (self : DefinedFunction) (contract_defining_trait : ContractContext)
    (trait_identifier : TraitIdentifier) (contract_to_check : ContractContext)
    (tbl : List (ClarityName × FunctionSignature)) (expected_sig : FunctionSignature)
    (hdef : contract_defining_trait.lookup_trait_definition trait_identifier.name = some tbl)
    (hsig : assocLookup tbl self.name = some expected_sig) :
    (expected_sig.args.length ≠ self.arg_types.length →
      check_trait_expectations admits_type self contract_defining_trait
          trait_identifier contract_to_check =
        CheckOutcome.err
          (CheckErrors.BadTraitImplementation trait_identifier.name self.name))
    ∧ (check_trait_expectations admits_type self contract_defining_trait
          trait_identifier contract_to_check = CheckOutcome.ok ↔
        expected_sig.args.length = self.arg_types.length ∧
        ∀ p ∈ expected_sig.args.zip self.arg_types,
          argPairOk admits_type contract_defining_trait contract_to_check p.1 p.2 = true) := by
  rw [check_trait_expectations_eq admits_type self contract_defining_trait
    trait_identifier contract_to_check tbl expected_sig hdef hsig]
  constructor
  · intro hne
    rw [if_pos hne]
  · by_cases hlen : expected_sig.args.length = self.arg_types.length
    · rw [if_neg (fun hc => hc hlen), checkArgs_eq_all]
      cases hall : (expected_sig.args.zip self.arg_types).all
          (fun p => argPairOk admits_type contract_defining_trait contract_to_check p.1 p.2) with
      | true =>
        constructor
        · intro _
          exact ⟨hlen, List.all_eq_true.mp hall⟩
        · intro _
          simp
      | false =>
        constructor
        · intro hc
          exact absurd hc (by simp)
        · rintro ⟨-, hp⟩
          exact absurd (List.all_eq_true.mpr hp) (by simp [hall])
    · rw [if_pos hlen]
      constructor
      · intro hc
        exact absurd hc (by simp)
      · rintro ⟨hl, -⟩
        exact absurd hl hlen

/-- Witness for C7: a claimed implementation with 2 parameters against a
trait method expecting 1 fails with `BadTraitImplementation`. -/
theorem check_trait_expectations_arity_and_totality_witness :
    sigTraitParam.args.length ≠ fArityTwo.arg_types.length ∧
    check_trait_expectations admitsTypeEq fArityTwo definerContext tidA checkerContext =
      CheckOutcome.err (CheckErrors.BadTraitImplementation "trait-a" "m") :=
  ⟨by decide,
    (check_trait_expectations_arity_and_totality admitsTypeEq fArityTwo definerContext
      tidA checkerContext [("m", sigTraitParam)] sigTraitParam
      (by decide) (by decide)).1 (by decide)⟩

/-- C10: the outcome of `check_trait_expectations` never consults the trait
method's declared return type: two defining contracts whose trait tables give
this method signatures with the same parameter lists (and the same
trait-reference table) yield the same outcome, whatever the two return
types. -/
theorem check_trait_expectations_ignores_return_type
    (admits_type : TypeSignature → TypeSignature → Bool)
    (self : DefinedFunction) (c₁ c₂ : ContractContext)
    (trait_identifier : TraitIdentifier) (contract_to_check : ContractContext)
    (tbl₁ tbl₂ : List (ClarityName × FunctionSignature))
    (sig₁ sig₂ : FunctionSignature)
    (hre : c₁.lookup_trait_reference = c₂.lookup_trait_reference)
    (hdef₁ : c₁.lookup_trait_definition trait_identifier.name = some tbl₁)
    (hsig₁ : assocLookup tbl₁ self.name = some sig₁)
    (hdef₂ : c₂.lookup_trait_definition trait_identifier.name = some tbl₂)
    (hsig₂ : assocLookup tbl₂ self.name = some sig₂)
    (hargs : sig₁.args = sig₂.args) :
    check_trait_expectations admits_type self c₁ trait_identifier contract_to_check =
      check_trait_expectations admits_type self c₂ trait_identifier contract_to_check := by
  rw [check_trait_expectations_eq admits_type self c₁ trait_identifier contract_to_check
      tbl₁ sig₁ hdef₁ hsig₁,
    check_trait_expectations_eq admits_type self c₂ trait_identifier contract_to_check
      tbl₂ sig₂ hdef₂ hsig₂]
  by_cases hl : sig₁.args.length = self.arg_types.length
  · have hl₂ : sig₂.args.length = self.arg_types.length := hargs ▸ hl
    rw [if_neg (fun hc => hc hl), if_neg (fun hc => hc hl₂), hargs,
      checkArgs_congr admits_type c₁ c₂ contract_to_check hre]
  · have hl₂ : sig₂.args.length ≠ self.arg_types.length := fun hc => hl (hargs ▸ hc)
    rw [if_pos hl, if_pos hl₂]

/-- Witness for C10: two trait tables for `trait-a` whose `m` signatures
differ only in return type (bool vs int) give identical check outcomes. -/
theorem check_trait_expectations_ignores_return_type_witness :
    sigTraitParam.returns ≠ sigTraitParamAlt.returns ∧
    sigTraitParam.args = sigTraitParamAlt.args ∧
    check_trait_expectations admitsTypeEq fImplTrait definerContext tidA checkerContext =
      check_trait_expectations admitsTypeEq fImplTrait definerContextAlt tidA checkerContext :=
  ⟨by decide, by decide,
    check_trait_expectations_ignores_return_type admitsTypeEq fImplTrait
      definerContext definerContextAlt tidA checkerContext
      [("m", sigTraitParam)] [("m", sigTraitParamAlt)] sigTraitParam sigTraitParamAlt
      rfl (by decide) (by decide) (by decide) (by decide) (by decide)⟩

/-- Splitting a character list at a colon is unambiguous when neither prefix
contains a colon. -/
theorem colon_split_eq (a₁ a₂ b₁ b₂ : List Char)
    (h₁ : (':' : Char) ∉ a₁) (h₂ : (':' : Char) ∉ a₂)
    (h : a₁ ++ ':' :: b₁ = a₂ ++ ':' :: b₂) : a₁ = a₂ ∧ b₁ = b₂ := by
  induction a₁ generalizing a₂ with
  | nil =>
    cases a₂ with
    | nil => simpa using h
    | cons c t =>
      simp only [List.nil_append, List.cons_append] at h
      injection h with hc ht
      subst hc
      exact absurd (List.mem_cons_self _ _) h₂
  | cons c t ih =>
    cases a₂ with
    | nil =>
      simp only [List.cons_append, List.nil_append] at h
      injection h with hc ht
      subst hc
      exact absurd (List.mem_cons_self _ _) h₁
    | cons c' t' =>
      simp only [List.cons_append] at h
      injection h with hc ht
      have ht₁ : (':' : Char) ∉ t := fun hm => h₁ (List.mem_cons_of_mem _ hm)
      have ht₂ : (':' : Char) ∉ t' := fun hm => h₂ (List.mem_cons_of_mem _ hm)
      obtain ⟨he, hb⟩ := ih t' ht₁ ht₂ ht
      exact ⟨by rw [hc, he], hb⟩

theorem native_identifier_data (n : String) :
    (FunctionIdentifier.new_native_function n).identifier.data =
      ("_native_" : String).data ++ ':' :: n.data := by
  show ("_native_:" ++ n).data = _
  rw [String.data_append]
  rfl

theorem user_identifier_data (n c : String) :
    (FunctionIdentifier.new_user_function n c).identifier.data =
      c.data ++ ':' :: n.data := by
  show (c ++ ":" ++ n).data = _
  rw [String.data_append, String.data_append, List.append_assoc]
  rfl

/-- Counterexample to C8 as stated: with unrestricted inputs the two
constructors do collide.  A user function defined in a context literally
named `_native_` collides with a native function of the same name, and two
different (name, context) pairs collide inside the user namespace when the
strings contain colons. -/
theorem function_identifier_collision_counterexample :
    FunctionIdentifier.new_user_function "x" "_native_" =
      FunctionIdentifier.new_native_function "x"
    ∧ FunctionIdentifier.new_user_function "b:c" "a" =
      FunctionIdentifier.new_user_function "c" "a:b"
    ∧ ¬(("b:c" : String) = "c" ∧ ("a" : String) = "a:b") := by
  refine ⟨?_, ?_, ?_⟩ <;> decide

/-- C8 as amended: construction is injective within each namespace and the
two namespaces never collide, provided each user-function defining context
contains no colon and is not the literal string `_native_` (native names are
unrestricted). -/
theorem function_identifier_injective (n₁ c₁ n₂ c₂ : String)
    (h₁ : (':' : Char) ∉ c₁.data) (h₂ : (':' : Char) ∉ c₂.data)
    (h₃ : c₁ ≠ "_native_") (h₄ : c₂ ≠ "_native_") :
    (FunctionIdentifier.new_native_function n₁ = FunctionIdentifier.new_native_function n₂ →
      n₁ = n₂)
    ∧ (FunctionIdentifier.new_user_function n₁ c₁ = FunctionIdentifier.new_user_function n₂ c₂ →
      n₁ = n₂ ∧ c₁ = c₂)
    ∧ FunctionIdentifier.new_native_function n₁ ≠
      FunctionIdentifier.new_user_function n₂ c₂
    ∧ FunctionIdentifier.new_user_function n₁ c₁ ≠
      FunctionIdentifier.new_native_function n₂ := by
  refine ⟨?_, ?_, ?_, ?_⟩
  · intro h
    have hd : ("_native_" : String).data ++ ':' :: n₁.data =
        ("_native_" : String).data ++ ':' :: n₂.data := by
      rw [← native_identifier_data n₁, ← native_identifier_data n₂, h]
    have h5 := List.append_cancel_left hd
    injection h5 with h6 h7
    exact String.ext h7
  · intro h
    have hd : c₁.data ++ ':' :: n₁.data = c₂.data ++ ':' :: n₂.data := by
      rw [← user_identifier_data n₁ c₁, ← user_identifier_data n₂ c₂, h]
    obtain ⟨hc, hn⟩ := colon_split_eq c₁.data c₂.data n₁.data n₂.data h₁ h₂ hd
    exact ⟨String.ext hn, String.ext hc⟩
  · intro h
    have hd : ("_native_" : String).data ++ ':' :: n₁.data =
        c₂.data ++ ':' :: n₂.data := by
      rw [← native_identifier_data n₁, ← user_identifier_data n₂ c₂, h]
    have hnc : (':' : Char) ∉ ("_native_" : String).data := by decide
    obtain ⟨hc, -⟩ := colon_split_eq _ _ _ _ hnc h₂ hd
    exact h₄ (String.ext hc.symm)
  · intro h
    have hd : ("_native_" : String).data ++ ':' :: n₂.data =
        c₁.data ++ ':' :: n₁.data := by
      rw [← native_identifier_data n₂, ← user_identifier_data n₁ c₁, h]
    have hnc : (':' : Char) ∉ ("_native_" : String).data := by decide
    obtain ⟨hc, -⟩ := colon_split_eq _ _ _ _ hnc h₁ hd
    exact h₃ (String.ext hc.symm)

/-- Witness for the amended C8 at concrete colon-free contexts. -/
theorem function_identifier_injective_witness :
    ((':' : Char) ∉ ("ctr" : String).data) ∧ (("ctr" : String) ≠ "_native_") ∧
    ((':' : Char) ∉ ("ctr2" : String).data) ∧ (("ctr2" : String) ≠ "_native_") ∧
    FunctionIdentifier.new_native_function "f" ≠
      FunctionIdentifier.new_user_function "g" "ctr2" :=
  ⟨by decide, by decide, by decide, by decide,
    (function_identifier_injective "f" "ctr" "g" "ctr2"
      (by decide) (by decide) (by decide) (by decide)).2.2.1⟩

end Callables
